import Mathlib

/-!
Shallow embedding of the hayanix detection engine and log normalizer
(`internal/rules/engine.go`, `internal/collection/collector.go` /
`internal/parser`), together with theorems settling the specification
claims about rule evaluation, rule loading and line parsing.

Strings are modelled by Lean's `String` (a list of characters); the Go
`strings` package functions used by the code are re-implemented below over
character lists (ASCII case folding, as all rule material and examples are
ASCII).  Go's `regexp` library is modelled by an abstract `RegexpLib`
record, since regular-expression compilation is external library code; the
three fixed lexical patterns of the log parsers are translated directly
into deterministic character-list parsers.  Go maps are modelled by
association lists (first-match lookup, which agrees with Go maps whose
keys are distinct).  Decoded YAML values distinguish string-keyed
mappings (`map[string]interface{}`, the type the engine's assertions
demand) from the interface-keyed mappings (`map[interface{}]interface{}`)
that the pinned go-yaml v2 decoder actually produces for every nested
mapping — a distinction on which rule evaluation turns.
-/

namespace Hayanix

/-! ## Go `strings` package model (ASCII) -/

/-- ASCII lower-casing of one character, as `strings.ToLower` acts on ASCII. -/
def lowerChar (c : Char) : Char :=
  if 'A' ≤ c ∧ c ≤ 'Z' then Char.ofNat (c.toNat + 32) else c

/-- Model of `strings.ToLower` (ASCII fragment). -/
def lowerStr (s : String) : String := ⟨s.data.map lowerChar⟩

/-- Model of `strings.HasPrefix s pre`. -/
def hasPre (s pre : String) : Bool := pre.data.isPrefixOf s.data

/-- Model of `strings.HasSuffix s suf`. -/
def hasSuf (s suf : String) : Bool := suf.data.reverse.isPrefixOf s.data.reverse

/-- `needle` occurs as a contiguous run inside the second list. -/
def containsAux (needle : List Char) : List Char → Bool
  | [] => needle.isEmpty
  | c :: rest => needle.isPrefixOf (c :: rest) || containsAux needle rest

/-- Model of `strings.Contains s sub`. -/
def containsStr (s sub : String) : Bool := containsAux sub.data s.data

/-- Model of `strings.TrimPrefix s pre`. -/
def trimPre (s pre : String) : String :=
  if hasPre s pre then ⟨s.data.drop pre.data.length⟩ else s

/-- Characters treated as white space by `strings.TrimSpace`
(ASCII fragment of `unicode.IsSpace`). -/
def isSpaceChar (c : Char) : Bool :=
  c = ' ' || c = '\t' || c = '\n' || c = Char.ofNat 11 || c = Char.ofNat 12 || c = '\r'

/-- Model of `strings.TrimSpace`. -/
def trimSpace (s : String) : String :=
  ⟨((s.data.dropWhile isSpaceChar).reverse.dropWhile isSpaceChar).reverse⟩

/-- Splitting worker: cut the string at every occurrence of the (non-empty)
separator, scanning left to right.  The fuel is the length of the input,
which suffices because every step consumes at least one character. -/
def splitAux (sep : List Char) : Nat → List Char → List Char → List (List Char)
  | 0, acc, s => [acc.reverse ++ s]
  | fuel + 1, acc, s =>
    match s with
    | [] => [acc.reverse]
    | c :: rest =>
      if sep.isPrefixOf s then
        acc.reverse :: splitAux sep fuel [] (s.drop sep.length)
      else
        splitAux sep fuel (c :: acc) rest

/-- Model of `strings.Split s sep`. -/
def splitStr (s sep : String) : List String :=
  if sep.data = [] then s.data.map (fun c => ⟨[c]⟩)
  else (splitAux sep.data s.data.length [] s.data).map (fun l => ⟨l⟩)

/-! ## Go `regexp` library model

The detection engine hands user-supplied patterns to `regexp.MatchString`,
which (a) may fail to compile the pattern and (b) on success reports
whether the pattern matches anywhere in the value (unanchored partial
match).  Those two aspects of the external library are modelled abstractly:
`compiles p` says whether pattern `p` compiles, and `rmatch p v` is the
unanchored partial-match verdict of a compiling pattern `p` against the
string `v`. -/

structure RegexpLib where
  compiles : String → Bool
  rmatch : String → String → Bool

/-- Model of `matched, _ := regexp.MatchString(pattern, value)`: the
compilation error is discarded and `matched` is `false` whenever the
pattern does not compile. -/
def regexpMatchString (R : RegexpLib) (pattern value : String) : Bool :=
  if R.compiles pattern then R.rmatch pattern value else false

/-- A trivial `RegexpLib` instance used to instantiate witnesses. -/
def regexpNone : RegexpLib where
  compiles := fun _ => true
  rmatch := fun _ _ => false

/-! ## Data model (`internal/parser.LogEntry`, `internal/rules`) -/

/-- `parser.LogEntry`: the canonical log record.  The `Fields` map is an
association list. -/
structure LogEntry where
  Timestamp : String := ""
  Hostname : String := ""
  Program : String := ""
  PID : String := ""
  Message : String := ""
  Category : String := ""
  Product : String := ""
  Service : String := ""
  Fields : List (String × String) := []
  MatchedRules : List String := []
deriving DecidableEq

/-- Decoded YAML value (`interface{}` after `yaml.Unmarshal`): strings,
integers, booleans, null, sequences, and two kinds of mappings.  `map`
models Go's `map[string]interface{}` — the type the engine's assertions
demand.  `imap` models `map[interface{}]interface{}` — the type the
pinned decoder (go.mod: `github.com/go-yaml/yaml v2.1.0+incompatible`,
the yaml.v2 codebase) actually produces for every mapping decoded into a
plain `interface{}` value.  Only the declared top-level field
`Detection map[string]interface{}` is string-keyed; all nested mappings
of a YAML-loaded rule (selection blocks, modifier maps) are `imap`,
never `map`.  Keys in the rule material are strings, so `imap` keys are
modelled as the strings boxed inside the `interface{}` keys.  Go
`float64` scalars are omitted from the model (floating point; no claim
depends on them). -/
inductive Yaml where
  | str (s : String)
  | int (n : Int)
  | bool (b : Bool)
  | null
  | list (xs : List Yaml)
  | map (kvs : List (String × Yaml))
  | imap (kvs : List (String × Yaml))

/-- `rules.LogSource`. -/
structure LogSource where
  Category : String := ""
  Product : String := ""
  Service : String := ""
deriving DecidableEq

/-- `rules.Rule`.  `Detection = none` models a nil Go map (the YAML key
was absent); `some kvs` models a present detection mapping. -/
structure Rule where
  Title : String := ""
  ID : String := ""
  Status : String := ""
  Description : String := ""
  Author : String := ""
  Date : String := ""
  Modified : String := ""
  Tags : List String := []
  Level : String := ""
  Logsource : LogSource := {}
  Detection : Option (List (String × Yaml)) := none
  Falsepositives : List String := []
  Fields : List String := []

/-- `rules.Engine`. -/
structure Engine where
  rules : List Rule

/-! ## Detection engine (`internal/rules/engine.go`) -/

/-- `Engine.getFieldValue`: resolve a field name against a record; unknown
names are looked up in the open fields map, defaulting to the empty
string. -/
def getFieldValue (entry : LogEntry) (field : String) : String :=
  if field = "message" then entry.Message
  else if field = "hostname" then entry.Hostname
  else if field = "program" then entry.Program
  else if field = "pid" then entry.PID
  else if field = "timestamp" then entry.Timestamp
  else
    match entry.Fields.lookup field with
    | some val => val
    | none => ""

/-- `Engine.matchString`: dispatch on an embedded modifier prefix token;
the default is case-insensitive substring containment. -/
def matchString (R : RegexpLib) (value pattern : String) : Bool :=
  if hasPre pattern "|re|" then
    regexpMatchString R (trimPre pattern "|re|") value
  else if hasPre pattern "|contains|" then
    containsStr (lowerStr value) (lowerStr (trimPre pattern "|contains|"))
  else if hasPre pattern "|startswith|" then
    hasPre (lowerStr value) (lowerStr (trimPre pattern "|startswith|"))
  else if hasPre pattern "|endswith|" then
    hasSuf (lowerStr value) (lowerStr (trimPre pattern "|endswith|"))
  else
    containsStr (lowerStr value) (lowerStr pattern)

/-- `Engine.evaluateFieldModifiers`: walk the modifier mapping; the first
recognized modifier whose criterion is a string decides the result; all
other entries are skipped; an exhausted mapping yields `false`. -/
def evaluateFieldModifiers (R : RegexpLib) (value : String) :
    List (String × Yaml) → Bool
  | [] => false
  | (modifier, criteria) :: rest =>
    if modifier = "contains" then
      match criteria with
      | .str c => containsStr (lowerStr value) (lowerStr c)
      | _ => evaluateFieldModifiers R value rest
    else if modifier = "startswith" then
      match criteria with
      | .str c => hasPre (lowerStr value) (lowerStr c)
      | _ => evaluateFieldModifiers R value rest
    else if modifier = "endswith" then
      match criteria with
      | .str c => hasSuf (lowerStr value) (lowerStr c)
      | _ => evaluateFieldModifiers R value rest
    else if modifier = "re" then
      match criteria with
      | .str c => regexpMatchString R c value
      | _ => evaluateFieldModifiers R value rest
    else evaluateFieldModifiers R value rest

mutual

/-- Go `fmt` `%v` rendering of a decoded YAML value: scalars print
directly, booleans as `true`/`false`, nil as `<nil>`, sequences as
space-separated elements in brackets, mappings as `map[k:v ...]`
(entries in model order; `fmt` sorts map keys for printing, but the
association lists here stand for maps whose rendering order the claims
never observe). -/
def sprintV : Yaml → String
  | .str s => s
  | .int n => toString n
  | .bool b => if b then "true" else "false"
  | .null => "<nil>"
  | .list xs => "[" ++ sprintVList xs ++ "]"
  | .map kvs => "map[" ++ sprintVPairs kvs ++ "]"
  | .imap kvs => "map[" ++ sprintVPairs kvs ++ "]"

/-- Space-separated `%v` renderings of a sequence's elements. -/
def sprintVList : List Yaml → String
  | [] => ""
  | [x] => sprintV x
  | x :: y :: xs => sprintV x ++ " " ++ sprintVList (y :: xs)

/-- Space-separated `k:v` renderings of a mapping's entries. -/
def sprintVPairs : List (String × Yaml) → String
  | [] => ""
  | [(k, v)] => k ++ ":" ++ sprintV v
  | (k, v) :: kv :: rest => k ++ ":" ++ sprintV v ++ " " ++ sprintVPairs (kv :: rest)

end

/-- String form of a list element in `Engine.evaluateField`
(`fmt.Sprintf` of the `[]interface{}` item): strings stand for
themselves, integers print in decimal (`%d`), and all remaining values
fall to the `%v` rendering. -/
def itemToString : Yaml → String
  | .str s => s
  | .int n => toString n
  | y => sprintV y

/-- `Engine.evaluateField`: a string criterion is matched directly, a
list criterion matches if any element matches, a string-keyed mapping
criterion (`case map[string]interface{}`) is handed to the modifier
walk, and any other criterion shape — including the interface-keyed
mappings that the pinned yaml.v2 decoder actually produces for nested
modifier maps — falls to the `default` branch and yields `false`. -/
def evaluateField (R : RegexpLib) (entry : LogEntry) (field : String)
    (criteria : Yaml) : Bool :=
  let fieldValue := getFieldValue entry field
  match criteria with
  | .str v => matchString R fieldValue v
  | .list items => items.any (fun item => matchString R fieldValue (itemToString item))
  | .map m => evaluateFieldModifiers R fieldValue m
  | _ => false

/-- Go map read with the Boolean zero value: `matches[part]`. -/
def condLookup (m : List (String × Bool)) (k : String) : Bool :=
  (m.lookup k).getD false

/-- Dispatch of `Engine.evaluateCondition` on the already lower-cased,
already defaulted condition string: `"selection"` requires every computed
entry to be `true` and at least one entry; otherwise the condition is
split on `" and "` / `" or "` or looked up directly. -/
def evalCondLowered (m : List (String × Bool)) (condition : String) : Bool :=
  if condition = "selection" then
    m.all (fun p => p.snd) && decide (0 < m.length)
  else if containsStr condition " and " then
    (splitStr condition " and ").all (fun part => condLookup m (trimSpace part))
  else if containsStr condition " or " then
    (splitStr condition " or ").any (fun part => condLookup m (trimSpace part))
  else
    condLookup m condition

/-- `Engine.evaluateCondition`: an empty condition defaults to
`"selection"`, the condition is lower-cased (the Go code reassigns the
`condition` variable twice), then dispatched. -/
def evaluateCondition (m : List (String × Bool)) (condition : String) : Bool :=
  evalCondLowered m (lowerStr (if condition = "" then "selection" else condition))

/-- The per-field results computed by `Engine.evaluateDetection` from the
block named `"selection"`: one Boolean per field criterion, keyed by the
field name. -/
def fieldMatches (R : RegexpLib) (entry : LogEntry)
    (selection : List (String × Yaml)) : List (String × Bool) :=
  selection.map (fun fc => (fc.fst, evaluateField R entry fc.fst fc.snd))

/-- `Engine.evaluateDetection`: the type assertion
`detection["selection"].(map[string]interface{})` succeeds only on a
string-keyed mapping (`Yaml.map`) — an interface-keyed `Yaml.imap`, the
shape the pinned yaml.v2 decoder gives every nested mapping, fails it —
and the value under `"condition"` must be a string; in every failing
case the result is `false`.  Otherwise the per-field results of the
selection mapping are evaluated against the condition. -/
def evaluateDetection (R : RegexpLib) (entry : LogEntry)
    (detection : List (String × Yaml)) : Bool :=
  match detection.lookup "selection" with
  | some (.map selection) =>
    match detection.lookup "condition" with
    | some (.str condition) =>
      evaluateCondition (fieldMatches R entry selection) condition
    | _ => false
  | _ => false

/-- `Engine.matchesLogSource`: each non-empty filter attribute must equal
the record's corresponding attribute. -/
def matchesLogSource (entry : LogEntry) (logSource : LogSource) : Bool :=
  if logSource.Category ≠ "" ∧ logSource.Category ≠ entry.Category then false
  else if logSource.Product ≠ "" ∧ logSource.Product ≠ entry.Product then false
  else if logSource.Service ≠ "" ∧ logSource.Service ≠ entry.Service then false
  else true

/-- `Engine.matchesRule`: log-source filter plus detection logic.  A nil
detection map reads as an empty mapping. -/
def matchesRule (R : RegexpLib) (entry : LogEntry) (rule : Rule) : Bool :=
  matchesLogSource entry rule.Logsource &&
    evaluateDetection R entry (rule.Detection.getD [])

/-- `Engine.Evaluate`: identifiers of all matching rules, in rule order. -/
def Evaluate (R : RegexpLib) (e : Engine) (entry : LogEntry) : List String :=
  (e.rules.filter (fun rule => matchesRule R entry rule)).map (fun rule => rule.ID)

/-! ## Rule loading (`internal/rules/engine.go`)

File contents and YAML decoding are external inputs to the loader, so a
rule file is modelled by its path together with the outcome of
`ioutil.ReadFile` + `yaml.Unmarshal`: `none` when reading or YAML parsing
fails, `some rule` when a `Rule` value was decoded.  A directory handed to
`filepath.Walk` is either absent (`none`, the walk reports an error) or a
list of the files it contains. -/

structure RuleFile where
  path : String
  parsed : Option Rule

/-- `Yaml.null` recognizer (a decoded YAML `null` value, Go `nil`). -/
def Yaml.isNullVal : Yaml → Bool
  | .null => true
  | _ => false

/-- `Engine.loadRule`: fail on read/parse failure, a missing `id`, a
missing `title` or a nil detection map; otherwise return the rule. -/
def loadRule (f : RuleFile) : Option Rule :=
  match f.parsed with
  | none => none
  | some rule =>
    if rule.ID = "" then none
    else if rule.Title = "" then none
    else
      match rule.Detection with
      | none => none
      | some _ => some rule

/-- `Engine.validateRule`: the detection mapping must not be nil, a
`"selection"` key and a `"condition"` key must both be present, and
neither may carry a null value. -/
def validateRule (rule : Rule) : Bool :=
  match rule.Detection with
  | none => false
  | some det =>
    (!det.any (fun kv => kv.fst = "selection" && kv.snd.isNullVal)) &&
    (!det.any (fun kv => kv.fst = "condition" && kv.snd.isNullVal)) &&
    det.any (fun kv => kv.fst = "selection") &&
    det.any (fun kv => kv.fst = "condition")

/-- Recognized rule-file extensions (`.yml` / `.yaml`). -/
def hasRuleExt (path : String) : Bool :=
  hasSuf path ".yml" || hasSuf path ".yaml"

/-- Walk body of `Engine.loadRulesFromDir` for one file: files without a
rule extension are ignored, files failing `loadRule` or `validateRule`
are skipped with a warning, and surviving rules are appended. -/
def processFile (rules : List Rule) (f : RuleFile) : List Rule :=
  if !hasRuleExt f.path then rules
  else
    match loadRule f with
    | none => rules
    | some rule => if validateRule rule then rules ++ [rule] else rules

/-- `Engine.loadRulesFromDir`: walking an absent directory reports an
error and contributes nothing; otherwise every file is processed and no
error is returned. -/
def loadRulesFromDir (rules : List Rule) (dir : Option (List RuleFile)) :
    List Rule × Option String :=
  match dir with
  | none => (rules, some "walk error")
  | some files => (files.foldl processFile rules, none)

/-- The directory list scanned by `Engine.loadRules`. -/
def ruleDirs (rulesDir : String) : List String :=
  [rulesDir,
   rulesDir ++ "/linux",
   rulesDir ++ "/linux/syslog",
   rulesDir ++ "/linux/journald",
   rulesDir ++ "/linux/auditd",
   rulesDir ++ "/external",
   rulesDir ++ "/external/chopchopgo",
   rulesDir ++ "/external/sigmahq",
   rulesDir ++ "/external/custom"]

/-- `Engine.loadRules` over a file system `fs` (mapping a directory path
to its contents, or `none` when the directory does not exist): per-
directory errors are logged and swallowed, and the function always
returns without error. -/
def loadRules (fs : String → Option (List RuleFile)) (rulesDir : String) : List Rule :=
  (ruleDirs rulesDir).foldl (fun rules dir => (loadRulesFromDir rules (fs dir)).fst) []

/-- `rules.NewEngine`: construct the engine; `loadRules` never fails, so
construction always succeeds. -/
def NewEngine (fs : String → Option (List RuleFile)) (rulesDir : String) :
    Except String Engine :=
  Except.ok { rules := loadRules fs rulesDir }

/-! ## Log normalizer (`internal/parser`)

Each parser reads lines from a file and matches them against one fixed
anchored regular expression.  The three expressions are translated here
into deterministic character-list recognizers (their greedy sub-patterns
admit no observable backtracking except in the program/pid fragment,
where descending candidate lengths are tried exactly as the leftmost-first
engine does).  The `time` package calls that reformat a raw timestamp
capture (which consult the wall clock for the year / the "now" fallback)
are abstracted into a conversion function passed to the parser. -/

/-- Regular-expression class `\w` (ASCII word character). -/
def reWordChar (c : Char) : Bool := c.isAlphanum || c = '_'

/-- Regular-expression class `\d`. -/
def reDigit (c : Char) : Bool := c.isDigit

/-- Regular-expression class `\s` (`[\t\n\f\r ]`). -/
def reSpace (c : Char) : Bool :=
  c = ' ' || c = '\t' || c = '\n' || c = Char.ofNat 12 || c = '\r'

/-- Exactly `n` characters satisfying `p`, returned with the remainder. -/
def takeCountP (p : Char → Bool) : Nat → List Char → Option (List Char × List Char)
  | 0, s => some ([], s)
  | _ + 1, [] => none
  | n + 1, c :: rest =>
    if p c then (takeCountP p n rest).map (fun t => (c :: t.fst, t.snd)) else none

/-- The fragment `\d{2}:\d{2}:\d{2}`. -/
def takeTime : List Char → Option (List Char × List Char)
  | a :: b :: ':' :: c :: d :: ':' :: e :: f :: rest =>
    if reDigit a && reDigit b && reDigit c && reDigit d && reDigit e && reDigit f then
      some ([a, b, ':', c, d, ':', e, f], rest)
    else none
  | _ => none

/-- One candidate for the fragment `(\S+)(?:\[(\d+)\])?:` with the `\S+`
capture fixed to the first `k` characters: the bracketed pid alternative
is preferred, then the bare colon. -/
def progAt (r : List Char) (k : Nat) : Option (List Char × List Char × List Char) :=
  let prog := r.take k
  match r.drop k with
  | '[' :: rest2 =>
    let ds := rest2.takeWhile reDigit
    if 0 < ds.length then
      match rest2.drop ds.length with
      | ']' :: ':' :: tail => some (prog, ds, tail)
      | _ => none
    else none
  | ':' :: tail => some (prog, [], tail)
  | _ => none

/-- Leftmost-first search over the candidate `\S+` lengths, longest
first, as the greedy engine backtracks. -/
def progSearch (r : List Char) : Nat → Option (List Char × List Char × List Char)
  | 0 => none
  | k + 1 =>
    match progAt r (k + 1) with
    | some x => some x
    | none => progSearch r k

/-- The fragment `(\S+)(?:\[(\d+)\])?:` matched at the head of `r`,
returning (program capture, pid capture, remainder after the colon). -/
def progMatch (r : List Char) : Option (List Char × List Char × List Char) :=
  progSearch r (r.takeWhile (fun c => !reSpace c)).length

/-- Captures shared by the syslog and journald expressions. -/
structure LineGroups where
  ts : String
  host : String
  prog : String
  pid : String
  msg : String
deriving DecidableEq

/-- The shared tail fragment `\s+(\S+)\s+(\S+)(?:\[(\d+)\])?:\s*(.*)$`:
host, program, optional pid, then the message with leading white space
stripped by the greedy `\s*`. -/
def hostProgMsg (s : List Char) : Option (List Char × List Char × List Char × List Char) :=
  let sp := s.takeWhile reSpace
  let s1 := s.dropWhile reSpace
  if sp.isEmpty then none
  else
    let host := s1.takeWhile (fun c => !reSpace c)
    let s2 := s1.dropWhile (fun c => !reSpace c)
    if host.isEmpty then none
    else
      let sp2 := s2.takeWhile reSpace
      let s3 := s2.dropWhile reSpace
      if sp2.isEmpty then none
      else
        match progMatch s3 with
        | none => none
        | some (prog, pid, tail) => some (host, prog, pid, tail.dropWhile reSpace)

/-- The syslog expression
`^(\w{3}\s+\d{1,2}\s+\d{2}:\d{2}:\d{2})\s+(\S+)\s+(\S+)(?:\[(\d+)\])?:\s*(.*)$`. -/
def syslogMatchLine (line : String) : Option LineGroups :=
  match takeCountP reWordChar 3 line.data with
  | none => none
  | some (mon, s1) =>
    let sp1 := s1.takeWhile reSpace
    let s2 := s1.dropWhile reSpace
    if sp1.isEmpty then none
    else
      let day := s2.takeWhile reDigit
      let s3 := s2.dropWhile reDigit
      if day.length = 0 || 2 < day.length then none
      else
        let sp2 := s3.takeWhile reSpace
        let s4 := s3.dropWhile reSpace
        if sp2.isEmpty then none
        else
          match takeTime s4 with
          | none => none
          | some (tme, s5) =>
            match hostProgMsg s5 with
            | none => none
            | some (host, prog, pid, msg) =>
              some ⟨⟨mon ++ sp1 ++ day ++ sp2 ++ tme⟩, ⟨host⟩, ⟨prog⟩, ⟨pid⟩, ⟨msg⟩⟩

/-- Optional fractional seconds `(?:\.\d+)?` (greedy). -/
def jdFrac : List Char → List Char × List Char
  | '.' :: rest =>
    let ds := rest.takeWhile reDigit
    if ds.isEmpty then ([], '.' :: rest) else ('.' :: ds, rest.dropWhile reDigit)
  | s => ([], s)

/-- Optional zone marker `(?:Z|[+-]\d{2}:\d{2})?` (greedy). -/
def jdTz : List Char → List Char × List Char
  | 'Z' :: rest => (['Z'], rest)
  | c :: a :: b :: ':' :: d :: e :: rest =>
    if (c == '+' || c == '-') && reDigit a && reDigit b && reDigit d && reDigit e then
      ([c, a, b, ':', d, e], rest)
    else ([], c :: a :: b :: ':' :: d :: e :: rest)
  | s => ([], s)

/-- The journald timestamp fragment
`\d{4}-\d{2}-\d{2}T\d{2}:\d{2}:\d{2}(?:\.\d+)?(?:Z|[+-]\d{2}:\d{2})?`. -/
def journaldTs (s : List Char) : Option (List Char × List Char) :=
  match takeCountP reDigit 4 s with
  | none => none
  | some (y, s1) =>
    match s1 with
    | '-' :: s2 =>
      match takeCountP reDigit 2 s2 with
      | none => none
      | some (mo, s3) =>
        match s3 with
        | '-' :: s4 =>
          match takeCountP reDigit 2 s4 with
          | none => none
          | some (d, s5) =>
            match s5 with
            | 'T' :: s6 =>
              match takeTime s6 with
              | none => none
              | some (tme, s7) =>
                let fz := jdFrac s7
                let tz := jdTz fz.snd
                some (y ++ '-' :: mo ++ '-' :: d ++ 'T' :: tme ++ fz.fst ++ tz.fst, tz.snd)
            | _ => none
        | _ => none
    | _ => none

/-- The journald expression: structured timestamp followed by the shared
host/program/message tail. -/
def journaldMatchLine (line : String) : Option LineGroups :=
  match journaldTs line.data with
  | none => none
  | some (ts, s1) =>
    match hostProgMsg s1 with
    | none => none
    | some (host, prog, pid, msg) => some ⟨⟨ts⟩, ⟨host⟩, ⟨prog⟩, ⟨pid⟩, ⟨msg⟩⟩

/-- Captures of the auditd expression. -/
structure AuditGroups where
  ty : String
  epoch : String
  seq : String
  rest : String
deriving DecidableEq

/-- Literal fragment: consume `lit` exactly. -/
def litPre (lit s : List Char) : Option (List Char) :=
  if lit.isPrefixOf s then some (s.drop lit.length) else none

/-- The auditd expression
`^type=(\S+)\s+msg=audit\((\d+\.\d+):(\d+)\):\s*(.*)$`. -/
def auditdMatchLine (line : String) : Option AuditGroups :=
  match litPre "type=".data line.data with
  | none => none
  | some s1 =>
    let ty := s1.takeWhile (fun c => !reSpace c)
    let s2 := s1.dropWhile (fun c => !reSpace c)
    if ty.isEmpty then none
    else
      let sp := s2.takeWhile reSpace
      let s3 := s2.dropWhile reSpace
      if sp.isEmpty then none
      else
        match litPre "msg=audit(".data s3 with
        | none => none
        | some s4 =>
          let d1 := s4.takeWhile reDigit
          let s5 := s4.dropWhile reDigit
          if d1.isEmpty then none
          else
            match s5 with
            | '.' :: s6 =>
              let d2 := s6.takeWhile reDigit
              let s7 := s6.dropWhile reDigit
              if d2.isEmpty then none
              else
                match s7 with
                | ':' :: s8 =>
                  let d3 := s8.takeWhile reDigit
                  let s9 := s8.dropWhile reDigit
                  if d3.isEmpty then none
                  else
                    match s9 with
                    | ')' :: ':' :: tail =>
                      some ⟨⟨ty⟩, ⟨d1 ++ '.' :: d2⟩, ⟨d3⟩, ⟨tail.dropWhile reSpace⟩⟩
                    | _ => none
                | _ => none
            | _ => none

/-- `FindAllStringSubmatch` of `(\w+)=([^\s]+)` over the audit message:
scan left to right, emitting every non-overlapping key=value token. -/
def auditFieldsAux : Nat → List Char → List (String × String)
  | 0, _ => []
  | _ + 1, [] => []
  | fuel + 1, c :: rest =>
    let s := c :: rest
    let w := s.takeWhile reWordChar
    if w.isEmpty then auditFieldsAux fuel rest
    else
      match s.drop w.length with
      | '=' :: s2 =>
        let v := s2.takeWhile (fun x => !reSpace x)
        if v.isEmpty then auditFieldsAux fuel rest
        else (⟨w⟩, ⟨v⟩) :: auditFieldsAux fuel (s2.drop v.length)
      | _ => auditFieldsAux fuel rest

/-- All `key=value` tokens of an audit message, in scan order. -/
def auditFields (msg : String) : List (String × String) :=
  auditFieldsAux msg.data.length msg.data

/-- Go map write `entry.Fields[key] = value`: replace an existing binding
or append a new one. -/
def insertField (m : List (String × String)) (k v : String) : List (String × String) :=
  match m with
  | [] => [(k, v)]
  | (k', v') :: rest => if k' = k then (k, v) :: rest else (k', v') :: insertField rest k v

/-- The fields map accumulated from the scanned tokens. -/
def buildFields (l : List (String × String)) : List (String × String) :=
  l.foldl (fun m kv => insertField m kv.fst kv.snd) []

/-- The record built by `SyslogParser.Parse` from one matching line;
`tsconv` models the `time.Parse`/`Format` reformatting (which consults
the wall clock for the missing year). -/
def mkSyslogEntry (tsconv : String → String) (g : LineGroups) : LogEntry :=
  { Timestamp := tsconv g.ts, Hostname := g.host, Program := g.prog, PID := g.pid,
    Message := g.msg, Category := "process", Product := "linux", Service := "syslog" }

/-- The record built by `JournaldParser.Parse` from one matching line. -/
def mkJournaldEntry (tsconv : String → String) (g : LineGroups) : LogEntry :=
  { Timestamp := tsconv g.ts, Hostname := g.host, Program := g.prog, PID := g.pid,
    Message := g.msg, Category := "process", Product := "linux", Service := "journald" }

/-- The record built by `AuditdParser.Parse` from one matching line:
fixed hostname and program, the audit sequence number as pid, and the
embedded `key=value` tokens as open fields. -/
def mkAuditdEntry (tsconv : String → String) (g : AuditGroups) : LogEntry :=
  { Timestamp := tsconv g.epoch, Hostname := "localhost", Program := "auditd",
    PID := g.seq, Message := g.rest, Category := "audit", Product := "linux",
    Service := "auditd", Fields := buildFields (auditFields g.rest) }

/-- `entries[len(entries)-1].Message += " " + line`, guarded by
`len(entries) > 0`. -/
def appendToLast (line : String) : List LogEntry → List LogEntry
  | [] => []
  | [e] => [{ e with Message := e.Message ++ " " ++ line }]
  | e :: rest => e :: appendToLast line rest

/-- One loop iteration of `SyslogParser.Parse`: empty lines are skipped,
non-matching lines are folded into the previous record's message (or
dropped when there is none), matching lines append a new record. -/
def syslogStep (tsconv : String → String) (entries : List LogEntry) (line : String) :
    List LogEntry :=
  if line = "" then entries
  else
    match syslogMatchLine line with
    | none => appendToLast line entries
    | some g => entries ++ [mkSyslogEntry tsconv g]

/-- `SyslogParser.Parse` over the file's lines. -/
def syslogParse (tsconv : String → String) (lines : List String) : List LogEntry :=
  lines.foldl (syslogStep tsconv) []

/-- One loop iteration of `JournaldParser.Parse`: empty and non-matching
lines are skipped, matching lines append a new record. -/
def journaldStep (tsconv : String → String) (entries : List LogEntry) (line : String) :
    List LogEntry :=
  if line = "" then entries
  else
    match journaldMatchLine line with
    | none => entries
    | some g => entries ++ [mkJournaldEntry tsconv g]

/-- `JournaldParser.Parse` over the file's lines. -/
def journaldParse (tsconv : String → String) (lines : List String) : List LogEntry :=
  lines.foldl (journaldStep tsconv) []

/-- One loop iteration of `AuditdParser.Parse`: empty and non-matching
lines are skipped, matching lines append a new record. -/
def auditdStep (tsconv : String → String) (entries : List LogEntry) (line : String) :
    List LogEntry :=
  if line = "" then entries
  else
    match auditdMatchLine line with
    | none => entries
    | some g => entries ++ [mkAuditdEntry tsconv g]

/-- `AuditdParser.Parse` over the file's lines. -/
def auditdParse (tsconv : String → String) (lines : List String) : List LogEntry :=
  lines.foldl (auditdStep tsconv) []

/-! ## Auxiliary definitions used by the claim statements -/

/-- The specification's notion of one selection block's Boolean result:
the AND of all field criteria inside the block (spec §4.4 "independently
compute each selection block's boolean result").  Stated from the spec's
words, for comparison with the code's behavior; a block is a mapping of
field name to criteria regardless of how its keys are boxed, so both
mapping kinds are accepted here. -/
def blockResult (R : RegexpLib) (entry : LogEntry) (b : Yaml) : Bool :=
  match b with
  | .map kvs => kvs.all (fun kv => evaluateField R entry kv.fst kv.snd)
  | .imap kvs => kvs.all (fun kv => evaluateField R entry kv.fst kv.snd)
  | _ => false

/-- A rule file that fails to parse or lacks `id`, `title` or a detection
body — the bad files named by claim C6. -/
def badRuleFile (f : RuleFile) : Prop :=
  f.parsed = none ∨
    ∃ r, f.parsed = some r ∧ (r.ID = "" ∨ r.Title = "" ∨ r.Detection = none)

/-- Identity timestamp conversion, used to instantiate parser witnesses. -/
def idStr (s : String) : String := s

/-! ## Helper lemmas -/

theorem containsAux_nil (l : List Char) : containsAux [] l = true := by
  cases l <;> simp [containsAux, List.isPrefixOf]

theorem hasPre_append (pre s : String) : hasPre (pre ++ s) pre = true := by
  have h : (pre ++ s).data = pre.data ++ s.data := rfl
  simp only [hasPre, h]
  exact List.isPrefixOf_iff_prefix.mpr (List.prefix_append _ _)

theorem trimPre_append (pre s : String) : trimPre (pre ++ s) pre = s := by
  simp only [trimPre, hasPre_append, if_pos]
  show String.mk (((pre ++ s).data).drop pre.data.length) = s
  have h : (pre ++ s).data = pre.data ++ s.data := rfl
  rw [h, List.drop_left]

theorem evaluateDetection_sel_not_map (R : RegexpLib) (entry : LogEntry)
    (det : List (String × Yaml))
    (h : ∀ kvs, det.lookup "selection" ≠ some (Yaml.map kvs)) :
    evaluateDetection R entry det = false := by
  unfold evaluateDetection
  cases hsel : det.lookup "selection" with
  | none => rfl
  | some y => cases y with
    | map kvs => exact absurd hsel (h kvs)
    | str s => rfl
    | int n => rfl
    | bool b => rfl
    | null => rfl
    | list xs => rfl
    | imap kvs => rfl

theorem evaluateDetection_cond_not_str (R : RegexpLib) (entry : LogEntry)
    (det : List (String × Yaml)) (sb : List (String × Yaml))
    (h1 : det.lookup "selection" = some (.map sb))
    (h2 : ∀ s, det.lookup "condition" ≠ some (Yaml.str s)) :
    evaluateDetection R entry det = false := by
  unfold evaluateDetection
  rw [h1]
  cases hcond : det.lookup "condition" with
  | none => rfl
  | some y => cases y with
    | str s => exact absurd hcond (h2 s)
    | int n => rfl
    | bool b => rfl
    | null => rfl
    | list xs => rfl
    | map kvs => rfl
    | imap kvs => rfl

/-- The decisive consequence of the pinned yaml.v2 decoding: when the
value under `"selection"` is an interface-keyed mapping — as it is for
every YAML-loaded rule — the engine's `map[string]interface{}` type
assertion fails, evaluation returns `false`, and the rule never fires,
whatever the record and whatever the condition string. -/
theorem matchesRule_sel_imap_false (R : RegexpLib) (entry : LogEntry)
    (rule : Rule) (det sb : List (String × Yaml))
    (hdet : rule.Detection = some det)
    (hsel : det.lookup "selection" = some (Yaml.imap sb)) :
    matchesRule R entry rule = false := by
  unfold matchesRule
  rw [hdet]
  have h : evaluateDetection R entry det = false :=
    evaluateDetection_sel_not_map R entry det (by
      intro kvs hk
      rw [hsel] at hk
      exact Yaml.noConfusion (Option.some.inj hk))
  show (matchesLogSource entry rule.Logsource && evaluateDetection R entry det) = false
  rw [h, Bool.and_false]

/-! ## Claim theorems -/

/-- C4: for every field value and every literal string criterion carrying
no modifier prefix token, `matchString` returns `true` iff the lower-
casing of the value contains the lower-casing of the criterion as a
substring; in particular the criterion `"FAILED"` matches the message
`"Failed password"`. -/
theorem matchString_default_substring :
    (∀ (R : RegexpLib) (value pattern : String),
      (hasPre pattern "|re|" || hasPre pattern "|contains|" ||
       hasPre pattern "|startswith|" || hasPre pattern "|endswith|") = false →
      matchString R value pattern = containsStr (lowerStr value) (lowerStr pattern)) ∧
    (∀ R : RegexpLib, matchString R "Failed password" "FAILED" = true) := by
  constructor
  · intro R value pattern h
    simp only [Bool.or_eq_false_iff] at h
    obtain ⟨⟨⟨h1, h2⟩, h3⟩, h4⟩ := h
    simp [matchString, h1, h2, h3, h4]
  · intro R
    rfl

/-- Witness for C4 at the concrete value `"Failed password"` and the
concrete criterion `"FAILED"`. -/
theorem matchString_default_substring_witness :
    matchString regexpNone "Failed password" "FAILED" =
      containsStr (lowerStr "Failed password") (lowerStr "FAILED") ∧
    matchString regexpNone "Failed password" "FAILED" = true :=
  ⟨matchString_default_substring.1 regexpNone "Failed password" "FAILED" (by decide),
   matchString_default_substring.2 regexpNone⟩

/-- C5: for every field value and every criterion `|re|P`, the matcher
returns exactly the regexp library's verdict on the raw (non-lowered)
value — the unanchored partial match of `P` when `P` compiles, and
`false` when `P` is not a valid regular expression; the compilation
error is discarded, never propagated (the matcher is a total Boolean
function).  The same holds for the `re` modifier form. -/
theorem matchString_regex_oracle :
    (∀ (R : RegexpLib) (value P : String),
      matchString R value ("|re|" ++ P) =
        (if R.compiles P then R.rmatch P value else false)) ∧
    (∀ (R : RegexpLib) (value P : String) (rest : List (String × Yaml)),
      evaluateFieldModifiers R value (("re", Yaml.str P) :: rest) =
        (if R.compiles P then R.rmatch P value else false)) := by
  constructor
  · intro R value P
    simp only [matchString, hasPre_append, if_pos, trimPre_append]
    rfl
  · intro R value P rest
    rfl

/-- A loadable rule whose single selection criterion is the empty
string, with the interface-keyed selection mapping the pinned yaml.v2
decoder produces for every YAML-loaded rule. -/
def cexRuleC10 : Rule :=
  { Title := "t", ID := "r10",
    Detection := some [("selection", Yaml.imap [("message", Yaml.str "")]),
                       ("condition", Yaml.str "selection")] }

/-- A record passing `cexRuleC10`'s (empty) log-source filter. -/
def cexEntryC10 : LogEntry := { Message := "whatever", Service := "syslog" }

/-- Counterexample to C10's consequence: the empty-string criterion does
match the record's field value, the rule loads, validates and passes its
log-source filter — yet it does not fire, because the decoded selection
mapping is interface-keyed and the engine's string-keyed type assertion
on it fails. -/
theorem decoded_empty_criterion_rule_cex :
    loadRule { path := "r10.yml", parsed := some cexRuleC10 } = some cexRuleC10 ∧
    validateRule cexRuleC10 = true ∧
    matchesLogSource cexEntryC10 cexRuleC10.Logsource = true ∧
    matchString regexpNone (getFieldValue cexEntryC10 "message") "" = true ∧
    blockResult regexpNone cexEntryC10 (Yaml.imap [("message", Yaml.str "")]) = true ∧
    matchesRule regexpNone cexEntryC10 cexRuleC10 = false :=
  ⟨rfl, rfl, rfl, rfl, rfl, rfl⟩

/-- C10 (amended): matching any field value against the empty-string
literal criterion returns `true` (the default substring check with an
empty pattern always succeeds); the claimed consequence fails, however —
a loaded rule whose selection criterion is the empty string still fires
on no record, because the selection mapping decoded by the pinned
yaml.v2 is interface-keyed and the engine's `map[string]interface{}`
type assertion on it fails. -/
theorem empty_pattern_matches_everything :
    (∀ (R : RegexpLib) (value : String), matchString R value "" = true) ∧
    (∀ (R : RegexpLib) (entry : LogEntry) (rule : Rule)
       (det : List (String × Yaml)) (f : String),
      rule.Detection = some det →
      det.lookup "selection" = some (Yaml.imap [(f, Yaml.str "")]) →
      matchesRule R entry rule = false) := by
  have hms : ∀ (R : RegexpLib) (value : String), matchString R value "" = true := by
    intro R value
    have h : matchString R value "" = containsStr (lowerStr value) (lowerStr "") := rfl
    rw [h]
    exact containsAux_nil _
  refine ⟨hms, ?_⟩
  intro R entry rule det f hdet hsel
  exact matchesRule_sel_imap_false R entry rule det _ hdet hsel

/-- Witness for C10 at a concrete value and the concrete rule
`cexRuleC10`. -/
theorem empty_pattern_matches_everything_witness :
    matchString regexpNone "any value" "" = true ∧
    matchesRule regexpNone cexEntryC10 cexRuleC10 = false :=
  ⟨empty_pattern_matches_everything.1 regexpNone "any value",
   empty_pattern_matches_everything.2 regexpNone cexEntryC10 cexRuleC10
     _ "message" rfl rfl⟩

/-- C8: the log-source filter passes exactly when every non-empty filter
attribute equals the record's corresponding attribute (empty attributes
impose no constraint); a rule whose filter disagrees on some non-empty
attribute never fires, whatever the field-level matches; in particular a
filter service `"auditd"` never fires on a record with service
`"syslog"`. -/
theorem logsource_filter_gates_matching :
    (∀ (entry : LogEntry) (ls : LogSource),
      matchesLogSource entry ls = true ↔
        ((ls.Category = "" ∨ ls.Category = entry.Category) ∧
         (ls.Product = "" ∨ ls.Product = entry.Product) ∧
         (ls.Service = "" ∨ ls.Service = entry.Service))) ∧
    (∀ (R : RegexpLib) (entry : LogEntry) (rule : Rule),
      ((rule.Logsource.Category ≠ "" ∧ rule.Logsource.Category ≠ entry.Category) ∨
       (rule.Logsource.Product ≠ "" ∧ rule.Logsource.Product ≠ entry.Product) ∨
       (rule.Logsource.Service ≠ "" ∧ rule.Logsource.Service ≠ entry.Service)) →
      matchesRule R entry rule = false) ∧
    (∀ (R : RegexpLib) (entry : LogEntry) (rule : Rule),
      rule.Logsource.Service = "auditd" → entry.Service = "syslog" →
      matchesRule R entry rule = false) := by
  have hiff : ∀ (entry : LogEntry) (ls : LogSource),
      matchesLogSource entry ls = true ↔
        ((ls.Category = "" ∨ ls.Category = entry.Category) ∧
         (ls.Product = "" ∨ ls.Product = entry.Product) ∧
         (ls.Service = "" ∨ ls.Service = entry.Service)) := by
    intro entry ls
    unfold matchesLogSource
    split_ifs with h1 h2 h3 <;> simp <;> tauto
  have hgate : ∀ (R : RegexpLib) (entry : LogEntry) (rule : Rule),
      ((rule.Logsource.Category ≠ "" ∧ rule.Logsource.Category ≠ entry.Category) ∨
       (rule.Logsource.Product ≠ "" ∧ rule.Logsource.Product ≠ entry.Product) ∨
       (rule.Logsource.Service ≠ "" ∧ rule.Logsource.Service ≠ entry.Service)) →
      matchesRule R entry rule = false := by
    intro R entry rule hbad
    unfold matchesRule
    have hls : matchesLogSource entry rule.Logsource = false := by
      cases hb : matchesLogSource entry rule.Logsource with
      | false => rfl
      | true => exact absurd ((hiff entry rule.Logsource).mp hb) (by tauto)
    rw [hls, Bool.false_and]
  refine ⟨hiff, hgate, ?_⟩
  intro R entry rule hs he
  apply hgate
  right; right
  constructor
  · rw [hs]; intro h; exact absurd h (by decide)
  · rw [hs, he]; intro h; exact absurd h (by decide)

/-- Witness for C8: a concrete auditd-filtered rule does not fire on a
concrete syslog record even though its field criterion matches. -/
theorem logsource_filter_gates_matching_witness :
    matchesRule regexpNone { Message := "an x here", Service := "syslog" }
      { Title := "t", ID := "r8", Logsource := { Service := "auditd" },
        Detection := some [("selection", Yaml.map [("message", Yaml.str "x")]),
                           ("condition", Yaml.str "selection")] } = false :=
  logsource_filter_gates_matching.2.2 regexpNone _ _ rfl rfl

/-- C9: evaluation is a total Boolean function and every ill-shaped
detection body yields a non-match: a `"selection"` value that is not a
mapping, a `"condition"` value that is not a string, and a modifier map
whose criteria are all non-strings each evaluate to `false`, never a
crash or an error. -/
theorem malformed_detection_yields_false :
    (∀ (R : RegexpLib) (entry : LogEntry) (det : List (String × Yaml)),
      (∀ kvs, det.lookup "selection" ≠ some (Yaml.map kvs)) →
      evaluateDetection R entry det = false) ∧
    (∀ (R : RegexpLib) (entry : LogEntry) (det sb : List (String × Yaml)),
      det.lookup "selection" = some (Yaml.map sb) →
      (∀ s, det.lookup "condition" ≠ some (Yaml.str s)) →
      evaluateDetection R entry det = false) ∧
    (∀ (R : RegexpLib) (value : String) (mods : List (String × Yaml)),
      (∀ kv ∈ mods, ∀ s, kv.snd ≠ Yaml.str s) →
      evaluateFieldModifiers R value mods = false) ∧
    (∀ (R : RegexpLib) (entry : LogEntry) (rule : Rule),
      matchesRule R entry rule = false ∨ matchesRule R entry rule = true) := by
  refine ⟨evaluateDetection_sel_not_map, evaluateDetection_cond_not_str, ?_, ?_⟩
  · intro R value mods h
    induction mods with
    | nil => rfl
    | cons kv rest ih =>
      obtain ⟨m, c⟩ := kv
      have hrest := ih (fun kv hkv s => h kv (List.mem_cons_of_mem _ hkv) s)
      have hc : ∀ s, c ≠ Yaml.str s := fun s => h (m, c) (List.mem_cons_self _ _) s
      cases c with
      | str s => exact absurd rfl (hc s)
      | int n => simp only [evaluateFieldModifiers]; split_ifs <;> exact hrest
      | bool b => simp only [evaluateFieldModifiers]; split_ifs <;> exact hrest
      | null => simp only [evaluateFieldModifiers]; split_ifs <;> exact hrest
      | list xs => simp only [evaluateFieldModifiers]; split_ifs <;> exact hrest
      | map kvs => simp only [evaluateFieldModifiers]; split_ifs <;> exact hrest
      | imap kvs => simp only [evaluateFieldModifiers]; split_ifs <;> exact hrest
  · intro R entry rule
    exact (Bool.eq_false_or_eq_true _).symm


/-- Witness for C9: concrete ill-shaped detections evaluate to `false`. -/
theorem malformed_detection_yields_false_witness :
    evaluateDetection regexpNone {}
      [("selection", Yaml.str "x"), ("condition", Yaml.str "selection")] = false ∧
    evaluateDetection regexpNone {}
      [("selection", Yaml.map []), ("condition", Yaml.int 5)] = false ∧
    evaluateFieldModifiers regexpNone "v" [("contains", Yaml.int 3)] = false ∧
    (matchesRule regexpNone {} {} = false ∨ matchesRule regexpNone {} {} = true) :=
  ⟨malformed_detection_yields_false.1 regexpNone {} _
     (by intro kvs h; exact Yaml.noConfusion (Option.some.inj h)),
   malformed_detection_yields_false.2.1 regexpNone {} _ [] rfl
     (by intro s h; exact Yaml.noConfusion (Option.some.inj h)),
   malformed_detection_yields_false.2.2.1 regexpNone "v" _
     (by
       intro kv hkv s h
       rw [List.mem_singleton] at hkv
       subst hkv
       exact Yaml.noConfusion h),
   malformed_detection_yields_false.2.2.2 regexpNone {} {}⟩

/-- A loadable rule with selection blocks `sel_a` and `sel_b` (plus the
block named `selection` and the condition required for loading), its
mappings interface-keyed as the pinned yaml.v2 decoder produces them. -/
def cexRuleC1 : Rule :=
  { Title := "t", ID := "r1",
    Detection := some [("selection", Yaml.imap [("message", Yaml.str "x")]),
                       ("sel_a", Yaml.imap [("message", Yaml.str "x")]),
                       ("sel_b", Yaml.imap [("message", Yaml.str "x")]),
                       ("condition", Yaml.str "sel_a and sel_b")] }

/-- A record whose message satisfies every block of `cexRuleC1`. -/
def cexEntryC1 : LogEntry := { Message := "an x here" }

/-- Counterexample to C1 as stated: `cexRuleC1` is loadable, its
log-source filter passes on `cexEntryC1`, both named blocks `sel_a` and
`sel_b` evaluate `true` (each is the AND of its field criteria), the
condition is `"sel_a and sel_b"` — yet the rule does not fire: the
decoded selection value is an interface-keyed mapping and the engine's
`map[string]interface{}` assertion on it fails, so evaluation is
`false`. -/
theorem two_blocks_and_condition_cex :
    loadRule { path := "r1.yml", parsed := some cexRuleC1 } = some cexRuleC1 ∧
    validateRule cexRuleC1 = true ∧
    matchesLogSource cexEntryC1 cexRuleC1.Logsource = true ∧
    (cexRuleC1.Detection.getD []).lookup "condition" = some (Yaml.str "sel_a and sel_b") ∧
    (cexRuleC1.Detection.getD []).lookup "sel_a" =
      some (Yaml.imap [("message", Yaml.str "x")]) ∧
    (cexRuleC1.Detection.getD []).lookup "sel_b" =
      some (Yaml.imap [("message", Yaml.str "x")]) ∧
    blockResult regexpNone cexEntryC1 (Yaml.imap [("message", Yaml.str "x")]) = true ∧
    matchesRule regexpNone cexEntryC1 cexRuleC1 = false :=
  ⟨rfl, rfl, rfl, rfl, rfl, rfl, rfl, rfl⟩

/-- C1 (amended): for every record and every loaded rule whose decoded
detection carries an interface-keyed selection mapping — the shape the
pinned yaml.v2 decoder gives every YAML-loaded rule — evaluation returns
`false`: with condition `"sel_a and sel_b"` as with `"sel_a or sel_b"`,
the rule never fires, regardless of the blocks' results and of the
log-source filter. -/
theorem decoded_two_block_conditions_never_fire :
    ∀ (R : RegexpLib) (entry : LogEntry) (rule : Rule)
      (det sb : List (String × Yaml)),
      rule.Detection = some det →
      det.lookup "selection" = some (Yaml.imap sb) →
      ((det.lookup "condition" = some (Yaml.str "sel_a and sel_b") →
        matchesRule R entry rule = false) ∧
       (det.lookup "condition" = some (Yaml.str "sel_a or sel_b") →
        matchesRule R entry rule = false)) :=
  fun R entry rule det sb hdet hsel =>
    ⟨fun _ => matchesRule_sel_imap_false R entry rule det sb hdet hsel,
     fun _ => matchesRule_sel_imap_false R entry rule det sb hdet hsel⟩

/-- Witness for amended C1 at the concrete rule `cexRuleC1`. -/
theorem decoded_two_block_conditions_never_fire_witness :
    matchesRule regexpNone cexEntryC1 cexRuleC1 = false :=
  (decoded_two_block_conditions_never_fire regexpNone cexEntryC1 cexRuleC1
    _ _ rfl rfl).1 rfl

/-- A loadable rule with one declared selection block whose criterion
matches and condition `"selection"`, its mappings interface-keyed as the
pinned yaml.v2 decoder produces them. -/
def cexRuleC2 : Rule :=
  { Title := "t", ID := "r2",
    Detection := some [("selection", Yaml.imap [("message", Yaml.str "x")]),
                       ("condition", Yaml.str "selection")] }

/-- A record matching `cexRuleC2`'s selection block. -/
def cexEntryC2 : LogEntry := { Message := "an x here" }

/-- Counterexample to C2 as stated: the rule is loadable, its condition
is `"selection"`, its log-source filter passes, it declares a selection
criterion and its only declared block evaluates `true` — yet evaluation
returns `false`, because the decoded selection mapping is interface-
keyed and the engine's string-keyed type assertion on it fails. -/
theorem decoded_selection_condition_cex :
    loadRule { path := "r2.yml", parsed := some cexRuleC2 } = some cexRuleC2 ∧
    validateRule cexRuleC2 = true ∧
    matchesLogSource cexEntryC2 cexRuleC2.Logsource = true ∧
    (cexRuleC2.Detection.getD []).lookup "selection" =
      some (Yaml.imap [("message", Yaml.str "x")]) ∧
    blockResult regexpNone cexEntryC2 (Yaml.imap [("message", Yaml.str "x")]) = true ∧
    matchesRule regexpNone cexEntryC2 cexRuleC2 = false :=
  ⟨rfl, rfl, rfl, rfl, rfl, rfl⟩

/-- C2 (amended): for every loaded rule whose decoded detection carries
an interface-keyed selection mapping (as the pinned yaml.v2 decoder
produces for every YAML-loaded rule) and whose condition string is empty
or equals `"selection"` case-insensitively, evaluation returns `false`
for every record — even when every declared block's criteria match. -/
theorem decoded_selection_condition_never_fires :
    ∀ (R : RegexpLib) (entry : LogEntry) (rule : Rule)
      (det sb : List (String × Yaml)) (cond : String),
      rule.Detection = some det →
      det.lookup "selection" = some (Yaml.imap sb) →
      det.lookup "condition" = some (Yaml.str cond) →
      (cond = "" ∨ lowerStr cond = "selection") →
      matchesRule R entry rule = false :=
  fun R entry rule det sb _ hdet hsel _ _ =>
    matchesRule_sel_imap_false R entry rule det sb hdet hsel

/-- Witness for amended C2 at the concrete rule `cexRuleC2`. -/
theorem decoded_selection_condition_never_fires_witness :
    matchesRule regexpNone cexEntryC2 cexRuleC2 = false :=
  decoded_selection_condition_never_fires regexpNone cexEntryC2 cexRuleC2
    _ _ "selection" rfl rfl rfl (Or.inr (by decide))

theorem loadRule_bad (f : RuleFile) (h : badRuleFile f) : loadRule f = none := by
  rcases h with h | ⟨r, hr, hbad⟩
  · simp [loadRule, h]
  · unfold loadRule
    rw [hr]
    show (if r.ID = "" then none
          else if r.Title = "" then none
          else match r.Detection with | none => none | some _ => some r) = none
    rcases hbad with h1 | h1 | h1
    · rw [if_pos h1]
    · split_ifs <;> simp_all
    · split_ifs <;> simp_all

/-- C6: a rule file that fails to parse or lacks its identifier, title or
detection body contributes nothing to the loaded rule set — removing it
from the walked directory leaves the result unchanged — and directory
loading still completes without error. -/
theorem loader_skips_bad_rule_file :
    ∀ (rules : List Rule) (pre post : List RuleFile) (f : RuleFile),
      badRuleFile f →
      loadRulesFromDir rules (some (pre ++ f :: post)) =
        loadRulesFromDir rules (some (pre ++ post)) ∧
      (loadRulesFromDir rules (some (pre ++ f :: post))).snd = none := by
  intro rules pre post f hbad
  have hskip : ∀ acc, processFile acc f = acc := by
    intro acc
    unfold processFile
    rw [loadRule_bad f hbad]
    split_ifs <;> rfl
  have hL : ∀ files, loadRulesFromDir rules (some files) =
      (files.foldl processFile rules, none) := fun _ => rfl
  refine ⟨?_, by rw [hL]⟩
  rw [hL, hL]
  refine congrArg (fun l => (l, none)) ?_
  rw [List.foldl_append, List.foldl_append]
  show List.foldl processFile (processFile (List.foldl processFile rules pre) f) post = _
  rw [hskip]

/-- Witness for C6 at a concrete unparseable rule file. -/
theorem loader_skips_bad_rule_file_witness :
    loadRulesFromDir [] (some [{ path := "bad.yml", parsed := none }]) =
      loadRulesFromDir [] (some []) ∧
    (loadRulesFromDir [] (some [{ path := "bad.yml", parsed := none }])).snd = none :=
  loader_skips_bad_rule_file [] [] [] _ (Or.inl rfl)

/-- C7: constructing the engine over a file system on which none of the
scanned rule directories exists succeeds and yields an empty rule set. -/
theorem newEngine_missing_dirs_ok :
    ∀ (fs : String → Option (List RuleFile)) (rulesDir : String),
      (∀ d ∈ ruleDirs rulesDir, fs d = none) →
      NewEngine fs rulesDir = Except.ok { rules := [] } := by
  intro fs rulesDir h
  have h0 := h rulesDir (by simp [ruleDirs])
  have h1 := h (rulesDir ++ "/linux") (by simp [ruleDirs])
  have h2 := h (rulesDir ++ "/linux/syslog") (by simp [ruleDirs])
  have h3 := h (rulesDir ++ "/linux/journald") (by simp [ruleDirs])
  have h4 := h (rulesDir ++ "/linux/auditd") (by simp [ruleDirs])
  have h5 := h (rulesDir ++ "/external") (by simp [ruleDirs])
  have h6 := h (rulesDir ++ "/external/chopchopgo") (by simp [ruleDirs])
  have h7 := h (rulesDir ++ "/external/sigmahq") (by simp [ruleDirs])
  have h8 := h (rulesDir ++ "/external/custom") (by simp [ruleDirs])
  have key : loadRules fs rulesDir = [] := by
    unfold loadRules ruleDirs
    simp only [List.foldl]
    rw [h0, h1, h2, h3, h4, h5, h6, h7, h8]
    rfl
  unfold NewEngine
  rw [key]

/-- Witness for C7 at the empty file system. -/
theorem newEngine_missing_dirs_ok_witness :
    NewEngine (fun _ => none) "rules" = Except.ok { rules := [] } :=
  newEngine_missing_dirs_ok _ _ (fun _ _ => rfl)

theorem appendToLast_concat (line : String) (front : List LogEntry) (e : LogEntry) :
    appendToLast line (front ++ [e]) =
      front ++ [{ e with Message := e.Message ++ " " ++ line }] := by
  induction front with
  | nil => rfl
  | cons f fr ih =>
    cases fr with
    | nil => rfl
    | cons g gr =>
      show f :: appendToLast line ((g :: gr) ++ [e]) = _
      rw [ih]
      rfl

/-- Counterexample to C3 as stated: in the journald variant a line that
fails the lexical pattern is dropped even though a prior record exists —
the surviving record's message stays `"hello"` instead of gaining the
appended line, and no new record is created. -/
theorem journald_drops_unmatched_line_cex :
    journaldMatchLine "2025-01-01T10:00:00Z host1 prog: hello" =
      some ⟨"2025-01-01T10:00:00Z", "host1", "prog", "", "hello"⟩ ∧
    journaldMatchLine "continuation junk" = none ∧
    (journaldParse idStr
      ["2025-01-01T10:00:00Z host1 prog: hello", "continuation junk"]).map
        (fun en => en.Message) = ["hello"] ∧
    (journaldParse idStr
      ["2025-01-01T10:00:00Z host1 prog: hello", "continuation junk"]).length = 1 :=
  ⟨rfl, rfl, rfl, rfl⟩

/-- C3 (amended): a non-empty line failing the lexical pattern never
produces an error or a new record in any of the three variants; in the
syslog variant it is appended (space-joined) to the last record's
message when a record exists and silently dropped otherwise, while in
the journald and auditd variants it is always silently dropped. -/
theorem unmatched_line_handling :
    ∀ (tsS tsJ tsA : String → String) (line : String)
      (es esJ esA front : List LogEntry) (e : LogEntry),
      line ≠ "" →
      ((syslogMatchLine line = none → syslogStep tsS es line = appendToLast line es) ∧
       appendToLast line [] = [] ∧
       appendToLast line (front ++ [e]) =
         front ++ [{ e with Message := e.Message ++ " " ++ line }] ∧
       (journaldMatchLine line = none → journaldStep tsJ esJ line = esJ) ∧
       (auditdMatchLine line = none → auditdStep tsA esA line = esA)) := by
  intro tsS tsJ tsA line es esJ esA front e hne
  refine ⟨?_, rfl, appendToLast_concat line front e, ?_, ?_⟩
  · intro hm
    unfold syslogStep
    rw [if_neg hne, hm]
  · intro hm
    unfold journaldStep
    rw [if_neg hne, hm]
  · intro hm
    unfold auditdStep
    rw [if_neg hne, hm]

/-- Witness for amended C3 at the concrete non-matching line `"junk"`. -/
theorem unmatched_line_handling_witness :
    syslogStep idStr [{ Message := "hello" }] "junk" =
      appendToLast "junk" [{ Message := "hello" }] ∧
    appendToLast "junk" ([] : List LogEntry) = [] ∧
    appendToLast "junk" ([] ++ [({ Message := "hello" } : LogEntry)]) =
      [] ++ [{ ({ Message := "hello" } : LogEntry) with
               Message := "hello" ++ " " ++ "junk" }] ∧
    journaldStep idStr [{ Message := "hello" }] "junk" = [{ Message := "hello" }] ∧
    auditdStep idStr [{ Message := "hello" }] "junk" = [{ Message := "hello" }] :=
  have h := unmatched_line_handling idStr idStr idStr "junk" [{ Message := "hello" }]
    [{ Message := "hello" }] [{ Message := "hello" }] [] { Message := "hello" }
    (by decide)
  ⟨h.1 rfl, h.2.1, h.2.2.1, h.2.2.2.1 rfl, h.2.2.2.2 rfl⟩

end Hayanix
